import Mathlib

/-!
Verification of the PhoneMediaFileRenamer repository (`photo_renamer.py`).

The Python program is shallowly embedded below.  Machine-level conventions
of the embedding:

* A Python `datetime` is the structure `DateTime` of six natural-number
  fields; Python compares datetimes lexicographically by component, which
  is the order `DateTime.Lt` below.
* Filesystem effects are made explicit.  A directory is a `List Entry`
  (regular files and subdirectories, in filesystem listing order); the
  result of `get_date_taken` for a file (metadata extraction, an external
  effect) is carried on the file as `meta_date`, and the extractors
  themselves (`get_video_date_taken`, `get_image_date_taken`) are embedded
  separately as pure functions of their probe/EXIF inputs.
* `os.rename` is embedded with POSIX clobbering semantics: a pre-existing
  regular file at the target path would be replaced.  The program's guard
  (`new_path.exists()`) is what prevents that from ever happening.
* CPython library routines used by the program (`str.replace`,
  `pathlib.PurePath.suffix`, `str.lower`, `datetime.strptime`,
  `datetime.fromisoformat`) are modelled at the character-list level,
  following the CPython semantics the program relies on.  `strptime` and
  `fromisoformat` are modelled for fixed-width zero-padded fields (the
  only shapes metadata sources emit and the only shapes any theorem
  touches); CPython additionally tolerates unpadded fields.
-/

namespace PhotoRenamer

/-- A Python `datetime.datetime` value (naive clock reading). -/
structure DateTime where
  year : Nat
  month : Nat
  day : Nat
  hour : Nat
  minute : Nat
  second : Nat
deriving DecidableEq, Repr

/-- Python's `datetime` comparison: lexicographic by component. -/
def DateTime.Lt (a b : DateTime) : Prop :=
  a.year < b.year ∨ (a.year = b.year ∧
    (a.month < b.month ∨ (a.month = b.month ∧
      (a.day < b.day ∨ (a.day = b.day ∧
        (a.hour < b.hour ∨ (a.hour = b.hour ∧
          (a.minute < b.minute ∨ (a.minute = b.minute ∧
            a.second < b.second)))))))))

instance (a b : DateTime) : Decidable (DateTime.Lt a b) := by
  unfold DateTime.Lt; infer_instance

theorem DateTime.Lt.asymm {a b : DateTime} (h : DateTime.Lt a b) :
    ¬ DateTime.Lt b a := by
  unfold DateTime.Lt at *; omega

theorem DateTime.Lt.trans {a b c : DateTime}
    (h₁ : DateTime.Lt a b) (h₂ : DateTime.Lt b c) : DateTime.Lt a c := by
  unfold DateTime.Lt at *; omega

theorem DateTime.lt_total (a b : DateTime) :
    DateTime.Lt a b ∨ a = b ∨ DateTime.Lt b a := by
  have h : a = b ↔ (a.year = b.year ∧ a.month = b.month ∧ a.day = b.day ∧
      a.hour = b.hour ∧ a.minute = b.minute ∧ a.second = b.second) := by
    constructor
    · intro h; cases h; exact ⟨rfl, rfl, rfl, rfl, rfl, rfl⟩
    · rintro ⟨h1, h2, h3, h4, h5, h6⟩
      cases a; cases b; simp_all
  rw [h]; unfold DateTime.Lt; omega

/-- The calendar-day key a file is grouped under (`strftime("%Y-%m-%d")`). -/
structure Date where
  year : Nat
  month : Nat
  day : Nat
deriving DecidableEq, Repr

/-- Lexicographic order on day keys.  The program sorts the formatted
`"YYYY-MM-DD"` strings; for zero-padded four-digit years (every date any
metadata source emits) string order and this order agree. -/
def Date.Lt (a b : Date) : Prop :=
  a.year < b.year ∨ (a.year = b.year ∧
    (a.month < b.month ∨ (a.month = b.month ∧ a.day < b.day)))

instance (a b : Date) : Decidable (Date.Lt a b) := by
  unfold Date.Lt; infer_instance

/-- Day keys are processed in ascending order (`sorted(files_by_date.items())`). -/
def Date.Le (a b : Date) : Prop := ¬ Date.Lt b a

instance : DecidableRel Date.Le := fun a b => by
  unfold Date.Le; infer_instance

instance : IsTotal Date Date.Le := by
  constructor; intro a b; unfold Date.Le Date.Lt; omega

instance : IsTrans Date Date.Le := by
  constructor; intro a b c; unfold Date.Le Date.Lt; omega

/-! ### Character and string helpers (CPython routines the program uses) -/

/-- ASCII lowercasing of one character (`str.lower`; every extension the
program compares is ASCII). -/
def lowerChar (c : Char) : Char :=
  if 'A' ≤ c ∧ c ≤ 'Z' then Char.ofNat (c.toNat + 32) else c

/-- `str.lower` on an ASCII string. -/
def lowerStr (s : String) : String := ⟨s.data.map lowerChar⟩

/-- Splits a character list at its LAST dot: `lastDotSplit cs = some (x, y)`
iff `cs = x ++ '.' :: y` with no dot in `y`.  This is the search
`name.rfind(".")` performs inside `pathlib.PurePath.suffix`. -/
def lastDotSplit : List Char → Option (List Char × List Char)
  | [] => none
  | c :: rest =>
    match lastDotSplit rest with
    | some (x, y) => some (c :: x, y)
    | none => if c = '.' then some ([], rest) else none

/-- `pathlib.PurePath.suffix` on a file NAME (no directory separators):
the part from the last dot on, empty when the last dot is absent, leading
or trailing. -/
def pySuffix (s : String) : String :=
  match lastDotSplit s.data with
  | some (x, y) => if x ≠ [] ∧ y ≠ [] then ⟨'.' :: y⟩ else ⟨[]⟩
  | none => ⟨[]⟩

/-- `date_str.replace("Z", "+00:00")` — the pattern is a single character,
so the replacement is a per-character expansion. -/
def expandZ (s : String) : String :=
  ⟨s.data.flatMap fun c => if c = 'Z' then ['+', '0', '0', ':', '0', '0'] else [c]⟩

/-- Character list of `date_str.replace("+00:00", "")`: CPython scans left
to right removing non-overlapping occurrences of the six-character
pattern. -/
def stripPlus0000 : List Char → List Char
  | '+' :: '0' :: '0' :: ':' :: '0' :: '0' :: rest => stripPlus0000 rest
  | c :: rest => c :: stripPlus0000 rest
  | [] => []

/-- `date_str.split(".")[0]`: everything before the first dot. -/
def beforeDot (s : String) : String := ⟨s.data.takeWhile (· ≠ '.')⟩

/-- Whether `"T" in date_str`. -/
def hasT (s : String) : Bool := s.data.contains 'T'

def isDigit (c : Char) : Bool := '0' ≤ c ∧ c ≤ '9'

def digitVal (c : Char) : Nat := c.toNat - 48

def val2 (a b : Char) : Nat := 10 * digitVal a + digitVal b

def val4 (a b c d : Char) : Nat :=
  1000 * digitVal a + 100 * digitVal b + 10 * digitVal c + digitVal d

/-- Gregorian leap-year test (CPython `datetime` calendar validation). -/
def isLeap (y : Nat) : Bool := y % 4 = 0 ∧ (y % 100 ≠ 0 ∨ y % 400 = 0)

/-- Days in a month, for `datetime`'s validation of parsed components. -/
def daysInMonth (y m : Nat) : Nat :=
  if m = 2 then (if isLeap y then 29 else 28)
  else if m = 4 ∨ m = 6 ∨ m = 9 ∨ m = 11 then 30
  else 31

/-- Validity ranges `datetime.datetime(y, mo, d, h, mi, s)` enforces. -/
def validDT (y mo d h mi s : Nat) : Bool :=
  1 ≤ y ∧ y ≤ 9999 ∧ 1 ≤ mo ∧ mo ≤ 12 ∧ 1 ≤ d ∧ d ≤ daysInMonth y mo ∧
    h ≤ 23 ∧ mi ≤ 59 ∧ s ≤ 59

/-- `datetime.strptime(s, "%Y<sep>%m<sep>%d %H:%M:%S")` for zero-padded
fields: nineteen characters, four-digit year, two-digit remaining fields,
with calendar validation.  Instantiated with `sep = '-'` for
`"%Y-%m-%d %H:%M:%S"` and `sep = ':'` for `"%Y:%m:%d %H:%M:%S"`. -/
def strptimeFixed (sep : Char) : List Char → Option DateTime
  | [y1, y2, y3, y4, s1, m1, m2, s2, d1, d2, sp, h1, h2, c1, i1, i2, c2, e1, e2] =>
    if s1 = sep ∧ s2 = sep ∧ sp = ' ' ∧ c1 = ':' ∧ c2 = ':' ∧
        isDigit y1 ∧ isDigit y2 ∧ isDigit y3 ∧ isDigit y4 ∧
        isDigit m1 ∧ isDigit m2 ∧ isDigit d1 ∧ isDigit d2 ∧
        isDigit h1 ∧ isDigit h2 ∧ isDigit i1 ∧ isDigit i2 ∧
        isDigit e1 ∧ isDigit e2 ∧
        validDT (val4 y1 y2 y3 y4) (val2 m1 m2) (val2 d1 d2)
          (val2 h1 h2) (val2 i1 i2) (val2 e1 e2) then
      some ⟨val4 y1 y2 y3 y4, val2 m1 m2, val2 d1 d2,
            val2 h1 h2, val2 i1 i2, val2 e1 e2⟩
    else none
  | _ => none

/-- `datetime.fromisoformat` as the program exercises it:
`"YYYY-MM-DD<sep>HH:MM:SS"` (any single separator character, as in
CPython) with an optional `+HH:MM`/`-HH:MM` offset suffix.  CPython
returns an offset-aware datetime in the suffixed case; the program never
uses the offset, so the clock reading is returned. -/
def isoCore : List Char → Option DateTime
  | [y1, y2, y3, y4, s1, m1, m2, s2, d1, d2, _, h1, h2, c1, i1, i2, c2, e1, e2] =>
    if s1 = '-' ∧ s2 = '-' ∧ c1 = ':' ∧ c2 = ':' ∧
        isDigit y1 ∧ isDigit y2 ∧ isDigit y3 ∧ isDigit y4 ∧
        isDigit m1 ∧ isDigit m2 ∧ isDigit d1 ∧ isDigit d2 ∧
        isDigit h1 ∧ isDigit h2 ∧ isDigit i1 ∧ isDigit i2 ∧
        isDigit e1 ∧ isDigit e2 ∧
        validDT (val4 y1 y2 y3 y4) (val2 m1 m2) (val2 d1 d2)
          (val2 h1 h2) (val2 i1 i2) (val2 e1 e2) then
      some ⟨val4 y1 y2 y3 y4, val2 m1 m2, val2 d1 d2,
            val2 h1 h2, val2 i1 i2, val2 e1 e2⟩
    else none
  | _ => none

def pyFromIsoformat (s : String) : Option DateTime :=
  match s.data with
  | [y1, y2, y3, y4, s1, m1, m2, s2, d1, d2, sp, h1, h2, c1, i1, i2, c2, e1, e2,
     o0, o1, o2, o3, o4, o5] =>
    if (o0 = '+' ∨ o0 = '-') ∧ o3 = ':' ∧
        isDigit o1 ∧ isDigit o2 ∧ isDigit o4 ∧ isDigit o5 ∧
        val2 o1 o2 ≤ 23 ∧ val2 o4 o5 ≤ 59 then
      isoCore [y1, y2, y3, y4, s1, m1, m2, s2, d1, d2, sp,
               h1, h2, c1, i1, i2, c2, e1, e2]
    else none
  | cs => isoCore cs

/-- `Nat` rendered in decimal, as Python `str(i)` / `"%Y"`. -/
def natStr (n : Nat) : String := Nat.repr n

/-- Two-digit zero padding, as `strftime`'s `%m` / `%d`. -/
def pad2 (n : Nat) : String := if n < 10 then "0" ++ natStr n else natStr n

/-! ### Video extractor (`get_video_date_taken`, photo_renamer.py lines 27-112) -/

/-- A JSON tag dictionary (`{"<field>": "<string>", ...}`); keys unique,
`field in tags` / `tags[field]` is association-list lookup. -/
abbrev Tags := List (String × String)

/-- The decoded ffprobe JSON document.  `formatTags = some t` models
`"format" in metadata and "tags" in metadata["format"]` both holding;
each element of `streams` carries `some t` when that stream has a
`"tags"` member. -/
structure ProbeDoc where
  formatTags : Option Tags
  streams : Option (List (Option Tags))
deriving DecidableEq, Repr

/-- Outcome of `subprocess.run(["ffprobe", ...], timeout=30)` plus
`json.loads(result.stdout)`: a timeout, or completion with a return code
and (`none` when `json.loads` raises `JSONDecodeError`) the decoded
document. -/
inductive ProbeResult where
  | timeout
  | completed (returncode : Int) (doc : Option ProbeDoc)
deriving DecidableEq, Repr

def lookupTag (tags : Tags) (field : String) : Option String :=
  match tags with
  | [] => none
  | (k, v) :: rest => if k = field then some v else lookupTag rest field

/-- The ISO branch (`"T" in date_str`): replace `Z` with `+00:00`; with a
dot, parse the part before the first dot; otherwise delete every
`+00:00` and parse what is left. -/
def parseIsoBranch (v : String) : Option DateTime :=
  let v2 := expandZ v
  if v2.data.contains '.' then pyFromIsoformat (beforeDot v2)
  else pyFromIsoformat ⟨stripPlus0000 v2.data⟩

/-- Acceptance of one container-level tag value: the ISO branch when the
value contains a `T`, otherwise `strptime` with `"%Y-%m-%d %H:%M:%S"`
then `"%Y:%m:%d %H:%M:%S"`. -/
def parseContainerValue (v : String) : Option DateTime :=
  if hasT v then parseIsoBranch v
  else
    match strptimeFixed '-' v.data with
    | some d => some d
    | none => strptimeFixed ':' v.data

/-- Acceptance of one stream-level tag value: ONLY the ISO branch — the
stream loop has no `strptime` fallback (lines 94-99). -/
def parseStreamValue (v : String) : Option DateTime :=
  if hasT v then parseIsoBranch v else none

/-- `for field in fields: if field in tags: <try parse, on failure
continue>`. -/
def searchFields (accept : String → Option DateTime) (tags : Tags) :
    List String → Option DateTime
  | [] => none
  | f :: fs =>
    match lookupTag tags f with
    | some v =>
      match accept v with
      | some d => some d
      | none => searchFields accept tags fs
    | none => searchFields accept tags fs

/-- Container-level field priority order (line 60). -/
def containerFields : List String :=
  ["creation_time", "date", "creation_date", "com.apple.quicktime.creationdate"]

/-- Stream-level fields searched (line 90). -/
def streamFields : List String := ["creation_time", "date"]

def searchStreams : List (Option Tags) → Option DateTime
  | [] => none
  | none :: rest => searchStreams rest
  | some tags :: rest =>
    match searchFields parseStreamValue tags streamFields with
    | some d => some d
    | none => searchStreams rest

/-- `get_video_date_taken`: container tags first in priority order, then
each stream's tags; a timeout, non-zero exit or undecodable output yields
`none`. -/
def get_video_date_taken : ProbeResult → Option DateTime
  | .timeout => none
  | .completed rc doc =>
    if rc ≠ 0 then none
    else
      match doc with
      | none => none
      | some md =>
        let fromFormat :=
          match md.formatTags with
          | some tags => searchFields parseContainerValue tags containerFields
          | none => none
        match fromFormat with
        | some d => some d
        | none =>
          match md.streams with
          | some ss => searchStreams ss
          | none => none

/-! ### Image extractor (`get_image_date_taken`, lines 115-165) -/

/-- Candidate tag names, as the membership list on lines 136/152. -/
def dateTagNames : List String := ["DateTime", "DateTimeOriginal", "DateTimeDigitized"]

/-- An EXIF tag directory in its iteration order, each entry already
mapped through `TAGS` to its name.  A non-string value (whose `strptime`
raises `TypeError`) behaves exactly like a non-matching string. -/
abbrev ExifDir := List (String × String)

/-- What `Image.open(path)` followed by `image.getexif()` produced:
an exception, a `None` EXIF object, or a tag directory together with the
EXIF IFD sub-directory when `get_ifd(0x8769)` is available and does not
raise. -/
inductive ImageData where
  | openError
  | noExif
  | exif (main : ExifDir) (ifd : Option ExifDir)
deriving DecidableEq, Repr

/-- One left-to-right scan of a tag directory: the first tag whose name
is in `dateTagNames` AND whose value parses as `"%Y:%m:%d %H:%M:%S"`
wins; a matching name with an unparseable value is skipped and the scan
continues. -/
def scanExifDir : ExifDir → Option DateTime
  | [] => none
  | (n, v) :: rest =>
    if n ∈ dateTagNames then
      match strptimeFixed ':' v.data with
      | some d => some d
      | none => scanExifDir rest
    else scanExifDir rest

/-- `get_image_date_taken`: scan the main directory once, then the EXIF
IFD sub-directory the same way, returning `none` when neither yields a
parseable candidate or the image could not be read. -/
def get_image_date_taken : ImageData → Option DateTime
  | .openError => none
  | .noExif => none
  | .exif main ifd =>
    match scanExifDir main with
    | some d => some d
    | none =>
      match ifd with
      | some dir => scanExifDir dir
      | none => none

/-! ### Fallback date (`get_best_fallback_date`, lines 305-330) -/

/-- Python `min` of two datetimes: keeps the left argument on ties. -/
def minDT (a b : DateTime) : DateTime := if DateTime.Lt b a then b else a

/-- `get_best_fallback_date`, as a function of the file's stat
timestamps: modification time when creation is strictly newer than
modification, otherwise the earliest of the three. -/
def get_best_fallback_date (ctime mtime atime : DateTime) : DateTime :=
  if DateTime.Lt mtime ctime then mtime
  else minDT (minDT ctime mtime) atime

/-! ### Filesystem model -/

/-- A regular file as the program observes it: its current basename, the
result `get_date_taken` would report for it (`none` when no extractor
yields a date — the extraction itself is an external effect, embedded
separately above), its stat timestamps, and an opaque content
identifier (renaming never alters content). -/
structure MFile where
  name : String
  meta_date : Option DateTime
  ctime : DateTime
  mtime : DateTime
  atime : DateTime
  content : Nat
deriving DecidableEq, Repr

/-- One directory entry: a regular file or a subdirectory. -/
inductive Entry where
  | file (f : MFile)
  | subdir (name : String) (children : List Entry)

/-- A directory's listing, in filesystem (`iterdir`) order. -/
abbrev Dir := List Entry

def entryName : Entry → String
  | .file f => f.name
  | .subdir n _ => n

/-- The recognized media extension set (lines 344-349), kept in the
source's listing order. -/
def mediaExtensions : List String :=
  [".jpg", ".jpeg", ".png", ".tiff", ".tif", ".bmp", ".heic", ".heif", ".dng",
   ".mov", ".mp4", ".avi", ".mkv", ".m4v", ".3gp", ".wmv"]

/-- The video extension set (line 422). -/
def videoExtensions : List String :=
  [".mov", ".mp4", ".avi", ".mkv", ".m4v", ".3gp", ".wmv"]

/-- Whether `file_path.is_file() and file_path.suffix.lower() in
media_extensions` holds. -/
def isMediaEntry : Entry → Option MFile
  | .file f => if lowerStr (pySuffix f.name) ∈ mediaExtensions then some f else none
  | .subdir _ _ => none

mutual

/-- All media files in the subtree rooted at one entry (`rglob`). -/
def mediaInEntry : Entry → List MFile
  | .file f =>
    if lowerStr (pySuffix f.name) ∈ mediaExtensions then [f] else []
  | .subdir _ children => mediaInEntries children

def mediaInEntries : List Entry → List MFile
  | [] => []
  | e :: es => mediaInEntry e ++ mediaInEntries es

end

/-- `find_media_files(directory, recursive)` (lines 333-361): direct
children only when non-recursive, the full subtree (`rglob`) when
recursive.  Listing order within a directory is the `Dir` order; the
relative order of different directories' files under `rglob` is a model
choice, as the filesystem's own order is unspecified. -/
def find_media_files (directory : Dir) (recursive : Bool) : List MFile :=
  if recursive then mediaInEntries directory
  else directory.filterMap isMediaEntry

/-- `new_path.exists()`: any entry (file or subdirectory) bears the name. -/
def existsName (st : Dir) (n : String) : Bool :=
  st.any fun e => entryName e = n

/-- Whether an entry survives a rename onto `new` (regular files at the
target path are replaced; subdirectories are not).  -/
def keepEntry (new : String) : Entry → Bool
  | .file f => f.name ≠ new
  | .subdir _ _ => true

/-- The per-entry effect of renaming the file at `old` to `new`. -/
def renameEntry (old new : String) : Entry → Entry
  | .file f => if f.name = old then .file { f with name := new } else .file f
  | .subdir n c => .subdir n c

/-- `os.rename`/`Path.rename` with POSIX semantics: a pre-existing
regular file at the target is replaced (removed), then the source file
takes the new name.  The program only calls this after checking
`new_path.exists()`, which is what makes the removal vacuous. -/
def renameFile (st : Dir) (old new : String) : Dir :=
  (st.filter (keepEntry new)).map (renameEntry old new)

mutual

/-- The multiset (as an ordered list) of file contents in one entry. -/
def entryContents : Entry → List Nat
  | .file f => [f.content]
  | .subdir _ children => dirContents children

/-- The multiset (as an ordered list) of all file contents on disk. -/
def dirContents : Dir → List Nat
  | [] => []
  | e :: es => entryContents e ++ dirContents es

end

/-! ### Grouping, sequencing and renaming
(`rename_media_in_directory`, lines 364-452) -/

/-- A discovered file paired with its resolved capture timestamp. -/
structure RFile where
  file : MFile
  resolved : DateTime
deriving DecidableEq, Repr

/-- Lines 399-403: the metadata date when the extractor yielded one,
otherwise the filesystem-attribute fallback.  Total — never `None`. -/
def resolve_date_taken (f : MFile) : DateTime :=
  match f.meta_date with
  | some d => d
  | none => get_best_fallback_date f.ctime f.mtime f.atime

def discoveredFiles (st : Dir) : List RFile :=
  (find_media_files st false).map fun f => ⟨f, resolve_date_taken f⟩

/-- The `strftime("%Y-%m-%d")` grouping key. -/
def dateKey (f : RFile) : Date :=
  ⟨f.resolved.year, f.resolved.month, f.resolved.day⟩

/-- The key formatted for the target filename. -/
def formatDate (k : Date) : String :=
  natStr k.year ++ "-" ++ pad2 k.month ++ "-" ++ pad2 k.day

/-- One date group, in discovery order (`files_by_date[date_str]`
receives appends in the discovery loop's order). -/
def groupFor (files : List RFile) (k : Date) : List RFile :=
  files.filter fun f => dateKey f = k

/-- The day keys, each once, in ascending order
(`sorted(files_by_date.items())`). -/
def dayKeys (files : List RFile) : List Date :=
  List.insertionSort Date.Le ((files.map dateKey).dedup)

/-- The sort key comparison `file_list.sort(key=lambda x: x[1])` uses:
not-after on the resolved timestamps.  Python's sort is stable;
`List.insertionSort` with this relation is the same stable sort. -/
def timeLe (a b : RFile) : Prop := ¬ DateTime.Lt b.resolved a.resolved

instance : DecidableRel timeLe := fun a b => by
  unfold timeLe; infer_instance

instance : IsTotal RFile timeLe := by
  constructor; intro a b
  unfold timeLe
  rcases DateTime.lt_total a.resolved b.resolved with h | h | h
  · exact Or.inl h.asymm
  · exact Or.inl (by rw [h]; exact fun hc => absurd hc hc.asymm)
  · exact Or.inr h.asymm

instance : IsTrans RFile timeLe := by
  constructor; intro a b c hab hbc
  unfold timeLe DateTime.Lt at *; omega

/-- Lines 413-425: within a group, stable-sort by full timestamp and
enumerate from 1. -/
def planGroup (group : List RFile) : List (Nat × RFile) :=
  List.enumFrom 1 (List.insertionSort timeLe group)

/-- Lines 419-426: the computed target name.  The label is chosen by the
file's own (lowercased) extension, and the lowercased extension is
appended — `file_ext = file_path.suffix.lower()`. -/
def targetName (k : Date) (i : Nat) (ext : String) : String :=
  formatDate k ++ " - Phone " ++
    (if ext ∈ videoExtensions then "Videos" else "Photos") ++
    " (" ++ natStr i ++ ")" ++ ext

def entryTarget (k : Date) (p : Nat × RFile) : String :=
  targetName k p.1 (lowerStr (pySuffix p.2.file.name))

/-- Lines 428-444, for one planned entry: already correctly named →
untouched and uncounted; target exists on the CURRENT disk → skipped
(never retried with another number); dry run → report only; otherwise
rename and count. -/
def processEntry (dryRun : Bool) (k : Date) (acc : Dir × Nat) (p : Nat × RFile) :
    Dir × Nat :=
  let newName := entryTarget k p
  if p.2.file.name = newName then acc
  else if existsName acc.1 newName then acc
  else if dryRun then acc
  else (renameFile acc.1 p.2.file.name newName, acc.2 + 1)

/-- The nested rename loops (lines 413-444), threading the disk state. -/
def runPlan (dryRun : Bool) (st : Dir) (files : List RFile) : Dir × Nat :=
  (dayKeys files).foldl
    (fun acc k => (planGroup (groupFor files k)).foldl (processEntry dryRun k) acc)
    (st, 0)

/-- Line 446: `sum(len(files) for files in files_by_date.values())`. -/
def totalCount (files : List RFile) : Nat :=
  ((dayKeys files).map fun k => (groupFor files k).length).sum

/-- `rename_media_in_directory(directory_path, dry_run, recursive)`:
returns `((total_files, total_renamed), final disk state)`.  Note line
383 passes `recursive=False` to discovery regardless of the parameter. -/
def rename_media_in_directory (dirExists : Bool) (st : Dir)
    (dryRun : Bool) (recursive : Bool) : (Nat × Nat) × Dir :=
  if ¬ dirExists then ((0, 0), st)
  else if (find_media_files st false).isEmpty then ((0, 0), st)
  else
    ((totalCount (discoveredFiles st), (runPlan dryRun st (discoveredFiles st)).2),
      (runPlan dryRun st (discoveredFiles st)).1)

/-! ### Named fixtures used by the concrete theorems below -/

/-- A clock reading on 2023-01-15 at hour `h`. -/
def dtm (h : Nat) : DateTime := ⟨2023, 1, 15, h, 0, 0⟩

/-- Shape check on an extension string: a leading dot, a nonempty
remainder, and no further dot. -/
def extOk (e : String) : Bool :=
  match e.data with
  | c :: b => c = '.' ∧ ¬ b.isEmpty ∧ '.' ∉ b
  | [] => false

/-- A directory holding a file already named by the scheme but with the
wrong sequence number for its timestamp, plus an earlier-shot file: the
collision skip of the first run frees `(1)` for the second run. -/
def cexIdem : Dir :=
  [.file ⟨"2023-01-15 - Phone Photos (1).jpg", some (dtm 10), dtm 0, dtm 0, dtm 0, 1⟩,
   .file ⟨"y.jpg", some (dtm 9), dtm 0, dtm 0, dtm 0, 2⟩]

/-- The C4 scenario: the target `2023-01-15 - Phone Photos (1).jpg`
already exists with unrelated content (and a capture date on another
day, so the new source is the first and only entry of its group). -/
def cexCollision : Dir :=
  [.file ⟨"2023-01-15 - Phone Photos (1).jpg", some ⟨2023, 2, 1, 12, 0, 0⟩,
      dtm 0, dtm 0, dtm 0, 99⟩,
   .file ⟨"new.jpg", some (dtm 10), dtm 0, dtm 0, dtm 0, 7⟩]

/-- A source file with an upper-case extension. -/
def cexUpper : Dir := [.file ⟨"X.JPG", some (dtm 10), dtm 0, dtm 0, dtm 0, 1⟩]

/-- A non-empty directory containing no recognized media file. -/
def cexNoMedia : Dir := [.file ⟨"readme.txt", none, dtm 0, dtm 0, dtm 0, 0⟩]

/-- A probe document whose only date is a stream-level tag in the
literal `YYYY-MM-DD HH:MM:SS` encoding. -/
def cexProbe : ProbeResult :=
  .completed 0 (some ⟨none, some [some [("creation_time", "2023-01-15 09:00:00")]]⟩)

/-- A directory already in the fixed-point shape: its one file bears its
computed target name. -/
def fixNamed : Dir :=
  [.file ⟨"2023-01-15 - Phone Photos (1).jpg", some (dtm 10), dtm 0, dtm 0, dtm 0, 5⟩]

/-- A directory with one media file, for the dry-run witness. -/
def wDry : Dir := [.file ⟨"a.jpg", some (dtm 8), dtm 0, dtm 0, dtm 0, 1⟩]

/-- A directory where a computed target name is already occupied. -/
def wSkip : Dir :=
  [.file ⟨"2023-01-15 - Phone Photos (1).jpg", some (dtm 10), dtm 0, dtm 0, dtm 0, 3⟩,
   .file ⟨"src.jpg", some (dtm 9), dtm 0, dtm 0, dtm 0, 4⟩]

/-- A directory whose only media file sits inside a subdirectory. -/
def demoNested : Dir :=
  [.subdir "holiday" [.file ⟨"a.jpg", some (dtm 1), dtm 0, dtm 0, dtm 0, 1⟩]]

/-- A flat one-file directory for the discovery witness. -/
def wFlat : Dir := [.file ⟨"a.jpg", some (dtm 1), dtm 0, dtm 0, dtm 0, 1⟩]

/-! ### Helper lemmas -/

theorem DateTime.Lt.irrefl (a : DateTime) : ¬ DateTime.Lt a a := by
  unfold DateTime.Lt; omega

theorem enumFrom_map_fst {α : Type} (n : Nat) (l : List α) :
    (List.enumFrom n l).map Prod.fst = List.range' n l.length := by
  induction l generalizing n with
  | nil => rfl
  | cons a l ih => simp [List.enumFrom, List.range', ih]

theorem snd_mem_of_mem_enumFrom {α : Type} {p : Nat × α} :
    ∀ {n : Nat} {l : List α}, p ∈ List.enumFrom n l → p.2 ∈ l := by
  intro n l
  induction l generalizing n with
  | nil => intro h; cases h
  | cons a l ih =>
    intro h
    rcases List.mem_cons.mp h with h | h
    · subst h; exact List.mem_cons_self _ _
    · exact List.mem_cons_of_mem _ (ih h)

/-- Inserting into a list does not disturb the subsequence of any fixed
timestamp class: the inserted element lands in front of its own class and
outside every other class. -/
theorem filter_orderedInsert_key (t : DateTime) (a : RFile) (l : List RFile) :
    (List.orderedInsert timeLe a l).filter (fun f => f.resolved = t) =
      if a.resolved = t then a :: l.filter (fun f => f.resolved = t)
      else l.filter (fun f => f.resolved = t) := by
  have hsplit : l.filter (fun f => decide (f.resolved = t)) =
      (List.takeWhile (fun b => decide ¬timeLe a b) l).filter
        (fun f => decide (f.resolved = t)) ++
      (List.dropWhile (fun b => decide ¬timeLe a b) l).filter
        (fun f => decide (f.resolved = t)) := by
    conv_lhs => rw [← List.takeWhile_append_dropWhile
      (fun b => decide ¬timeLe a b) l]
    rw [List.filter_append]
  rw [List.orderedInsert_eq_take_drop, List.filter_append, List.filter_cons]
  by_cases hat : a.resolved = t
  · have htake : (List.takeWhile (fun b => decide ¬timeLe a b) l).filter
        (fun f => decide (f.resolved = t)) = [] := by
      rw [List.filter_eq_nil_iff]
      intro b hb hbt
      have h1 := List.mem_takeWhile_imp hb
      simp only [decide_eq_true_eq] at h1 hbt
      unfold timeLe at h1
      rw [not_not] at h1
      rw [hbt, hat] at h1
      exact DateTime.Lt.irrefl _ h1
    rw [hsplit, htake]
    simp [hat]
  · rw [hsplit]
    simp [hat]

/-- Stability of the per-day sort: for every timestamp value, the files
carrying that exact timestamp appear in the sorted list in their original
(discovery) order. -/
theorem filter_insertionSort_key (t : DateTime) (l : List RFile) :
    (List.insertionSort timeLe l).filter (fun f => f.resolved = t) =
      l.filter (fun f => f.resolved = t) := by
  induction l with
  | nil => rfl
  | cons a l ih =>
    rw [List.insertionSort, filter_orderedInsert_key, List.filter_cons]
    by_cases hat : a.resolved = t
    · rw [if_pos hat, if_pos (by simpa using hat), ih]
    · rw [if_neg hat, if_neg (by simpa using hat), ih]

theorem dirContents_append (a b : Dir) :
    dirContents (a ++ b) = dirContents a ++ dirContents b := by
  induction a with
  | nil => rfl
  | cons e es ih => simp [dirContents, ih]

theorem filter_keepEntry_of_not_exists {st : Dir} {new : String}
    (h : existsName st new = false) : st.filter (keepEntry new) = st := by
  rw [List.filter_eq_self]
  intro e he
  have := List.any_eq_false.mp h e he
  cases e with
  | file f => simpa [keepEntry, entryName] using this
  | subdir n c => simp [keepEntry]

theorem dirContents_map_renameEntry (st : Dir) (old new : String) :
    dirContents (st.map (renameEntry old new)) = dirContents st := by
  induction st with
  | nil => rfl
  | cons e es ih =>
    cases e with
    | file f =>
      by_cases hf : f.name = old
      · simp [dirContents, renameEntry, hf, entryContents, ih]
      · simp [dirContents, renameEntry, hf, entryContents, ih]
    | subdir n c => simp [dirContents, renameEntry, entryContents, ih]

/-- The guarded rename never loses or duplicates any content. -/
theorem dirContents_renameFile {st : Dir} {old new : String}
    (h : existsName st new = false) :
    dirContents (renameFile st old new) = dirContents st := by
  unfold renameFile
  rw [filter_keepEntry_of_not_exists h, dirContents_map_renameEntry]

theorem dirContents_processEntry (dryRun : Bool) (k : Date)
    (acc : Dir × Nat) (p : Nat × RFile) :
    dirContents (processEntry dryRun k acc p).1 = dirContents acc.1 := by
  simp only [processEntry]
  split_ifs with h1 h2 h3
  · rfl
  · rfl
  · rfl
  · exact dirContents_renameFile (by simpa using h2)

theorem dirContents_foldl_processEntry (dryRun : Bool) (k : Date) :
    ∀ (l : List (Nat × RFile)) (acc : Dir × Nat),
      dirContents ((l.foldl (processEntry dryRun k) acc).1) = dirContents acc.1 := by
  intro l
  induction l with
  | nil => intro acc; rfl
  | cons p l ih =>
    intro acc
    rw [List.foldl_cons, ih, dirContents_processEntry]

theorem dirContents_runPlan (dryRun : Bool) (st : Dir) (files : List RFile) :
    dirContents (runPlan dryRun st files).1 = dirContents st := by
  unfold runPlan
  have main : ∀ (ks : List Date) (acc : Dir × Nat),
      dirContents ((ks.foldl
        (fun acc k => (planGroup (groupFor files k)).foldl (processEntry dryRun k) acc)
        acc).1) = dirContents acc.1 := by
    intro ks
    induction ks with
    | nil => intro acc; rfl
    | cons k ks ih =>
      intro acc
      rw [List.foldl_cons, ih, dirContents_foldl_processEntry]
  exact main _ _

/-- A discovered file is a direct regular-file child of the directory. -/
theorem file_of_mem_find {st : Dir} {f : MFile}
    (h : f ∈ find_media_files st false) :
    Entry.file f ∈ st ∧ lowerStr (pySuffix f.name) ∈ mediaExtensions := by
  unfold find_media_files at h
  simp only [Bool.false_eq_true, if_false] at h
  rcases List.mem_filterMap.mp h with ⟨e, he, hfe⟩
  cases e with
  | file g =>
    simp only [isMediaEntry] at hfe
    by_cases hm : lowerStr (pySuffix g.name) ∈ mediaExtensions
    · rw [if_pos hm] at hfe
      cases hfe
      exact ⟨he, hm⟩
    · rw [if_neg hm] at hfe
      cases hfe
  | subdir n c => cases hfe

/-- Every file a plan entry mentions was discovered, with a recognized
(lowercased) extension. -/
theorem plan_mem_media {st : Dir} {k : Date} {p : Nat × RFile}
    (hp : p ∈ planGroup (groupFor (discoveredFiles st) k)) :
    p.2.file ∈ find_media_files st false ∧
      lowerStr (pySuffix p.2.file.name) ∈ mediaExtensions := by
  have h1 : p.2 ∈ List.insertionSort timeLe (groupFor (discoveredFiles st) k) :=
    snd_mem_of_mem_enumFrom hp
  have h2 : p.2 ∈ groupFor (discoveredFiles st) k :=
    (List.mem_insertionSort timeLe).mp h1
  have h3 : p.2 ∈ discoveredFiles st := List.mem_of_mem_filter h2
  rcases List.mem_map.mp h3 with ⟨f, hf, hfe⟩
  have hfile : p.2.file = f := by rw [← hfe]
  rw [hfile]
  exact ⟨hf, (file_of_mem_find hf).2⟩

/-! #### Suffix structure of computed target names -/

theorem all_media_extOk : ∀ e ∈ mediaExtensions, extOk e = true := by decide

theorem lastDotSplit_of_not_mem {l : List Char} (h : '.' ∉ l) :
    lastDotSplit l = none := by
  induction l with
  | nil => rfl
  | cons c rest ih =>
    have hc : c ≠ '.' := fun hc => h (hc ▸ List.mem_cons_self c rest)
    have hr : '.' ∉ rest := fun hr => h (List.mem_cons_of_mem c hr)
    simp [lastDotSplit, ih hr, hc]

theorem lastDotSplit_append (a : List Char) {b : List Char} (hb : '.' ∉ b) :
    lastDotSplit (a ++ '.' :: b) = some (a, b) := by
  induction a with
  | nil => simp [lastDotSplit, lastDotSplit_of_not_mem hb]
  | cons c a ih => simp [lastDotSplit, ih]

/-- `PurePath.suffix` of a name of the form `stem ++ ext` with a
well-shaped extension is that extension. -/
theorem pySuffix_concat {A ext : String} (hA : A.data ≠ [])
    (hx : extOk ext = true) : pySuffix (A ++ ext) = ext := by
  obtain ⟨ed⟩ := ext
  cases ed with
  | nil => simp [extOk] at hx
  | cons c b =>
    simp only [extOk, decide_eq_true_eq, Bool.and_eq_true, decide_eq_true_eq,
      List.isEmpty_eq_true] at hx
    obtain ⟨hc, hbne, hbd⟩ := hx
    subst hc
    have hdata : (A ++ ⟨'.' :: b⟩ : String).data = A.data ++ '.' :: b := rfl
    unfold pySuffix
    rw [hdata, lastDotSplit_append A.data hbd]
    simp [hA, hbne]

/-- The data of a computed target name splits as stem plus extension. -/
theorem targetName_data (k : Date) (i : Nat) (ext : String) :
    targetName k i ext =
      (formatDate k ++ " - Phone " ++
        (if ext ∈ videoExtensions then "Videos" else "Photos") ++
        " (" ++ natStr i ++ ")") ++ ext := rfl

theorem stem_data_ne_nil (k : Date) (i : Nat) (w : String) :
    (formatDate k ++ " - Phone " ++ w ++ " (" ++ natStr i ++ ")").data ≠ [] := by
  intro h
  have : (formatDate k ++ " - Phone " ++ w ++ " (" ++ natStr i ++ ")").data =
      (formatDate k ++ " - Phone " ++ w ++ " (" ++ natStr i).data ++ [')'] := rfl
  rw [this] at h
  simp at h

/-- The suffix of a computed target name is the (lowercased) extension
that was appended. -/
theorem pySuffix_targetName (k : Date) (i : Nat) {ext : String}
    (hx : extOk ext = true) : pySuffix (targetName k i ext) = ext := by
  rw [targetName_data]
  exact pySuffix_concat (stem_data_ne_nil k i _) hx

/-! #### No-op folds -/

/-- With `dry_run` set, one step never touches the disk or the counter. -/
theorem processEntry_dry (k : Date) (acc : Dir × Nat) (p : Nat × RFile) :
    processEntry true k acc p = acc := by
  simp only [processEntry]
  split_ifs <;> rfl

theorem runPlan_dry (st : Dir) (files : List RFile) :
    runPlan true st files = (st, 0) := by
  unfold runPlan
  have main : ∀ (ks : List Date) (acc : Dir × Nat),
      (ks.foldl
        (fun acc k => (planGroup (groupFor files k)).foldl (processEntry true k) acc)
        acc) = acc := by
    intro ks
    induction ks with
    | nil => intro acc; rfl
    | cons k ks ih =>
      intro acc
      rw [List.foldl_cons]
      have inner : ∀ (l : List (Nat × RFile)) (acc2 : Dir × Nat),
          l.foldl (processEntry true k) acc2 = acc2 := by
        intro l
        induction l with
        | nil => intro acc2; rfl
        | cons p l ih2 =>
          intro acc2
          rw [List.foldl_cons, processEntry_dry, ih2]
      rw [inner, ih]
  exact main _ _

/-- A step whose file already bears its computed target name is a no-op. -/
theorem processEntry_already_named (dryRun : Bool) (k : Date)
    (acc : Dir × Nat) (p : Nat × RFile) (h : p.2.file.name = entryTarget k p) :
    processEntry dryRun k acc p = acc := by
  simp only [processEntry]
  rw [if_pos h]

theorem runPlan_already_named (dryRun : Bool) (st : Dir) (files : List RFile)
    (h : ∀ k ∈ dayKeys files, ∀ p ∈ planGroup (groupFor files k),
      p.2.file.name = entryTarget k p) :
    runPlan dryRun st files = (st, 0) := by
  unfold runPlan
  have main : ∀ (ks : List Date),
      (∀ k ∈ ks, ∀ p ∈ planGroup (groupFor files k),
        p.2.file.name = entryTarget k p) →
      ∀ (acc : Dir × Nat),
      (ks.foldl
        (fun acc k => (planGroup (groupFor files k)).foldl (processEntry dryRun k) acc)
        acc) = acc := by
    intro ks
    induction ks with
    | nil => intro _ acc; rfl
    | cons k ks ih =>
      intro hks acc
      rw [List.foldl_cons]
      have inner : ∀ (l : List (Nat × RFile)),
          (∀ p ∈ l, p.2.file.name = entryTarget k p) →
          ∀ (acc2 : Dir × Nat), l.foldl (processEntry dryRun k) acc2 = acc2 := by
        intro l
        induction l with
        | nil => intro _ acc2; rfl
        | cons p l ih2 =>
          intro hl acc2
          rw [List.foldl_cons,
            processEntry_already_named dryRun k acc2 p
              (hl p (List.mem_cons_self p l)),
            ih2 (fun q hq => hl q (List.mem_cons_of_mem p hq))]
      rw [inner _ (hks k (List.mem_cons_self k ks)),
        ih (fun k2 hk2 => hks k2 (List.mem_cons_of_mem k hk2))]
  exact main _ h _

/-! #### Total count -/

theorem totalCount_pos {st : Dir} (h : find_media_files st false ≠ []) :
    0 < totalCount (discoveredFiles st) := by
  have hfiles : discoveredFiles st ≠ [] := by
    unfold discoveredFiles
    simpa using h
  rcases List.exists_mem_of_ne_nil _ hfiles with ⟨f, hf⟩
  have hk : dateKey f ∈ dayKeys (discoveredFiles st) := by
    unfold dayKeys
    rw [List.mem_insertionSort, List.mem_dedup]
    exact List.mem_map.mpr ⟨f, hf, rfl⟩
  have hgrp : f ∈ groupFor (discoveredFiles st) (dateKey f) := by
    unfold groupFor
    exact List.mem_filter.mpr ⟨hf, by simp⟩
  have hlen : 0 < (groupFor (discoveredFiles st) (dateKey f)).length :=
    List.length_pos.mpr (List.ne_nil_of_mem hgrp)
  have hmem : (groupFor (discoveredFiles st) (dateKey f)).length ∈
      (dayKeys (discoveredFiles st)).map
        (fun k => (groupFor (discoveredFiles st) k).length) :=
    List.mem_map.mpr ⟨dateKey f, hk, rfl⟩
  calc 0 < (groupFor (discoveredFiles st) (dateKey f)).length := hlen
    _ ≤ totalCount (discoveredFiles st) :=
      List.single_le_sum (fun x _ => Nat.zero_le x) _ hmem

/-! #### Order facts about the fallback minimum -/

theorem dtLe_trans {a b c : DateTime}
    (h1 : ¬ DateTime.Lt b a) (h2 : ¬ DateTime.Lt c b) : ¬ DateTime.Lt c a := by
  unfold DateTime.Lt at *; omega

theorem minDT_le_left (x y : DateTime) : ¬ DateTime.Lt x (minDT x y) := by
  unfold minDT
  split
  · next h => exact h.asymm
  · exact DateTime.Lt.irrefl x

theorem minDT_le_right (x y : DateTime) : ¬ DateTime.Lt y (minDT x y) := by
  unfold minDT
  split
  · exact DateTime.Lt.irrefl y
  · next h => exact h

theorem minDT_eq_or (x y : DateTime) : minDT x y = x ∨ minDT x y = y := by
  unfold minDT
  split
  · exact Or.inr rfl
  · exact Or.inl rfl

/-! #### EXIF scan lemmas -/

theorem scanExifDir_eq_none {dir : ExifDir}
    (h : ∀ q ∈ dir, q.1 ∈ dateTagNames → strptimeFixed ':' q.2.data = none) :
    scanExifDir dir = none := by
  induction dir with
  | nil => rfl
  | cons q rest ih =>
    obtain ⟨n, v⟩ := q
    by_cases hn : n ∈ dateTagNames
    · have hv := h (n, v) (List.mem_cons_self _ _) hn
      simp only [scanExifDir, if_pos hn, hv]
      exact ih fun q hq => h q (List.mem_cons_of_mem _ hq)
    · simp only [scanExifDir, if_neg hn]
      exact ih fun q hq => h q (List.mem_cons_of_mem _ hq)

theorem scanExifDir_found {pre post : ExifDir} {n v : String} {d : DateTime}
    (hn : n ∈ dateTagNames) (hv : strptimeFixed ':' v.data = some d)
    (hpre : ∀ q ∈ pre, q.1 ∈ dateTagNames → strptimeFixed ':' q.2.data = none) :
    scanExifDir (pre ++ (n, v) :: post) = some d := by
  induction pre with
  | nil => simp only [List.nil_append, scanExifDir, if_pos hn, hv]
  | cons q rest ih =>
    obtain ⟨m, w⟩ := q
    by_cases hm : m ∈ dateTagNames
    · have hw := hpre (m, w) (List.mem_cons_self _ _) hm
      simp only [List.cons_append, scanExifDir, if_pos hm, hw]
      exact ih fun q hq => hpre q (List.mem_cons_of_mem _ hq)
    · simp only [List.cons_append, scanExifDir, if_neg hm]
      exact ih fun q hq => hpre q (List.mem_cons_of_mem _ hq)

/-! ## The claims -/

/-- C1 (confirmed).  For every date group: the per-day list is a
permutation of the discovered group, sorted ascending by full capture
timestamp, with every class of exactly-equal timestamps kept in original
discovery order (stability); the assigned sequence numbers are exactly
`1..N` in that sorted order (one counter shared by photos and videos);
and each entry's target differs only in the `Photos`/`Videos` label,
chosen by that entry's own extension. -/
theorem chronological_sequencing (k : Date) (g : List RFile) :
    (List.insertionSort timeLe g).Perm g
    ∧ List.Sorted timeLe (List.insertionSort timeLe g)
    ∧ (∀ t : DateTime,
        (List.insertionSort timeLe g).filter (fun f => f.resolved = t)
          = g.filter (fun f => f.resolved = t))
    ∧ (planGroup g).map Prod.fst = List.range' 1 g.length
    ∧ (∀ p : Nat × RFile, entryTarget k p =
        formatDate k ++ " - Phone " ++
          (if lowerStr (pySuffix p.2.file.name) ∈ videoExtensions
            then "Videos" else "Photos") ++
          " (" ++ natStr p.1 ++ ")" ++ lowerStr (pySuffix p.2.file.name)) := by
  refine ⟨List.perm_insertionSort timeLe g, List.sorted_insertionSort timeLe g,
    fun t => filter_insertionSort_key t g, ?_, fun p => rfl⟩
  unfold planGroup
  rw [enumFrom_map_fst, List.length_insertionSort]

/-- C2 (confirmed).  No run ever loses or overwrites file content: the
list of file contents on disk is unchanged by a whole run; and whenever
a computed target name is already occupied (by anything other than the
source itself), that iteration leaves the disk and the rename counter
untouched — the entry is skipped, not retried with another number. -/
theorem no_data_loss :
    (∀ (dirExists : Bool) (st : Dir) (dryRun recursive : Bool),
      dirContents (rename_media_in_directory dirExists st dryRun recursive).2 =
        dirContents st)
    ∧ (∀ (dryRun : Bool) (k : Date) (acc : Dir × Nat) (p : Nat × RFile),
        p.2.file.name ≠ entryTarget k p →
        existsName acc.1 (entryTarget k p) = true →
        processEntry dryRun k acc p = acc) := by
  constructor
  · intro dirExists st dryRun r
    unfold rename_media_in_directory
    split_ifs with h1 h2
    · rfl
    · exact dirContents_runPlan dryRun st (discoveredFiles st)
    · rfl
  · intro dryRun k acc p hne hex
    simp only [processEntry]
    rw [if_neg hne, if_pos hex]

/-- Witness for C2's skip conjunct: with `(1)` occupied, the pending
entry for `src.jpg` is skipped and the state and counter are unchanged. -/
theorem no_data_loss_witness :
    processEntry false ⟨2023, 1, 15⟩ (wSkip, 0)
      (1, ⟨⟨"src.jpg", some (dtm 9), dtm 0, dtm 0, dtm 0, 4⟩, dtm 9⟩) = (wSkip, 0) :=
  no_data_loss.2 false ⟨2023, 1, 15⟩ (wSkip, 0)
    (1, ⟨⟨"src.jpg", some (dtm 9), dtm 0, dtm 0, dtm 0, 4⟩, dtm 9⟩)
    (by decide) (by decide)

/-- C3 counterexample.  Running the pipeline twice with unchanged
metadata does NOT always give zero renames on the second run: in
`cexIdem` the first run skips `y.jpg` (its target `(1)` is occupied) but
renames the occupying file away to `(2)`, so the second run renames
`y.jpg` — both runs report exactly one rename. -/
theorem second_run_renames_again :
    (rename_media_in_directory true cexIdem false false).1.2 = 1
    ∧ (rename_media_in_directory true
        (rename_media_in_directory true cexIdem false false).2 false false).1.2 = 1 :=
  ⟨rfl, rfl⟩

/-- C3 (corrected).  A run on a directory in which every planned entry
already bears its computed target name performs zero renames and leaves
the directory untouched — so the second run is a no-op exactly when the
first run ended with every file at its computed target (a file whose
name equals its target is skipped and not counted).  When a collision
skip leaves a file away from its target, the second run may rename
(see the counterexample). -/
theorem second_run_noop_when_targets_match (st : Dir) (recursive : Bool)
    (h : ∀ k ∈ dayKeys (discoveredFiles st),
      ∀ p ∈ planGroup (groupFor (discoveredFiles st) k),
        p.2.file.name = entryTarget k p) :
    rename_media_in_directory true st false recursive =
      ((totalCount (discoveredFiles st), 0), st) := by
  unfold rename_media_in_directory
  split_ifs with h1 h2
  · have h3 : find_media_files st false = [] := by simpa using h2
    have h4 : discoveredFiles st = [] := by
      unfold discoveredFiles
      rw [h3]
      rfl
    rw [h4]
    rfl
  · rw [runPlan_already_named false st (discoveredFiles st) h]
  · exact absurd rfl h1

/-- Witness for C3's theorem, at a directory already in fixed-point
shape. -/
theorem second_run_noop_witness :
    rename_media_in_directory true fixNamed false false =
      ((totalCount (discoveredFiles fixNamed), 0), fixNamed) :=
  second_run_noop_when_targets_match fixNamed false (by decide)

/-- C4 counterexample.  At the claim's exact configuration (the target
`(1).jpg` exists with unrelated content; the new source is the first and
only entry of its date group) the source is NOT renamed to `(2).jpg`:
it keeps its original name and no `(2)` file exists afterwards. -/
theorem collision_source_not_renamed :
    ((rename_media_in_directory true cexCollision false false).2).map entryName =
      ["2023-02-01 - Phone Photos (1).jpg", "new.jpg"]
    ∧ existsName (rename_media_in_directory true cexCollision false false).2
        "2023-01-15 - Phone Photos (2).jpg" = false :=
  ⟨rfl, rfl⟩

/-- C4 (corrected).  In that configuration the source is skipped — left
untouched under its original name, not retried with sequence number 2 —
and the pre-existing file's content (99) survives unchanged (that file
itself is renamed to its own group's target). -/
theorem collision_skips_source :
    rename_media_in_directory true cexCollision false false =
      ((2, 1),
        [.file ⟨"2023-02-01 - Phone Photos (1).jpg", some ⟨2023, 2, 1, 12, 0, 0⟩,
            dtm 0, dtm 0, dtm 0, 99⟩,
         .file ⟨"new.jpg", some (dtm 10), dtm 0, dtm 0, dtm 0, 7⟩])
    ∧ dirContents (rename_media_in_directory true cexCollision false false).2 =
        [99, 7] :=
  ⟨rfl, rfl⟩

/-- C5 counterexample.  A source named `X.JPG` is renamed to a target
ending in `.jpg`: the extension's character case is NOT preserved. -/
theorem extension_case_not_preserved :
    ((rename_media_in_directory true cexUpper false false).2).map entryName =
      ["2023-01-15 - Phone Photos (1).jpg"]
    ∧ pySuffix "X.JPG" = ".JPG"
    ∧ pySuffix "2023-01-15 - Phone Photos (1).jpg" = ".jpg"
    ∧ (".jpg" : String) ≠ ".JPG" :=
  ⟨rfl, rfl, rfl, by decide⟩

/-- C5 (corrected).  For every planned entry, the extension of the
computed target name equals the source file's extension converted to
lowercase (including the leading dot); the original character case is
not kept. -/
theorem extension_lowercased (st : Dir) (k : Date) (p : Nat × RFile)
    (hp : p ∈ planGroup (groupFor (discoveredFiles st) k)) :
    pySuffix (entryTarget k p) = lowerStr (pySuffix p.2.file.name) := by
  have hm := (plan_mem_media hp).2
  have hx := all_media_extOk _ hm
  exact pySuffix_targetName k p.1 hx

/-- Witness for C5's theorem at the upper-case fixture. -/
theorem extension_lowercased_witness :
    pySuffix (entryTarget ⟨2023, 1, 15⟩
        (1, ⟨⟨"X.JPG", some (dtm 10), dtm 0, dtm 0, dtm 0, 1⟩, dtm 10⟩)) =
      lowerStr (pySuffix "X.JPG") :=
  extension_lowercased cexUpper ⟨2023, 1, 15⟩
    (1, ⟨⟨"X.JPG", some (dtm 10), dtm 0, dtm 0, dtm 0, 1⟩, dtm 10⟩) (by decide)

/-- C6 (confirmed).  When the extractor yields no metadata date the
resolution falls back to the stat attributes, and the fallback is total:
it returns exactly the modification time when creation is strictly after
modification, and otherwise a timestamp that is no later than each of
creation, modification and access and is one of the three. -/
theorem fallback_date_resolution :
    (∀ c m a : DateTime, DateTime.Lt m c → get_best_fallback_date c m a = m)
    ∧ (∀ c m a : DateTime, ¬ DateTime.Lt m c →
        (¬ DateTime.Lt c (get_best_fallback_date c m a)
          ∧ ¬ DateTime.Lt m (get_best_fallback_date c m a)
          ∧ ¬ DateTime.Lt a (get_best_fallback_date c m a))
        ∧ (get_best_fallback_date c m a = c ∨ get_best_fallback_date c m a = m
            ∨ get_best_fallback_date c m a = a))
    ∧ (∀ (name : String) (c m a : DateTime) (content : Nat),
        resolve_date_taken ⟨name, none, c, m, a, content⟩ =
          get_best_fallback_date c m a) := by
  refine ⟨?_, ?_, fun name c m a content => rfl⟩
  · intro c m a h
    unfold get_best_fallback_date
    rw [if_pos h]
  · intro c m a h
    unfold get_best_fallback_date
    rw [if_neg h]
    refine ⟨⟨?_, ?_, minDT_le_right _ _⟩, ?_⟩
    · exact dtLe_trans (minDT_le_left (minDT c m) a) (minDT_le_left c m)
    · exact dtLe_trans (minDT_le_left (minDT c m) a) (minDT_le_right c m)
    · rcases minDT_eq_or (minDT c m) a with h1 | h1
      · rcases minDT_eq_or c m with h2 | h2
        · exact Or.inl (h1.trans h2)
        · exact Or.inr (Or.inl (h1.trans h2))
      · exact Or.inr (Or.inr h1)

/-- Witness for C6 in both regimes of the fallback. -/
theorem fallback_date_resolution_witness :
    get_best_fallback_date ⟨2023, 6, 1, 10, 30, 0⟩ ⟨2023, 1, 15, 10, 30, 0⟩
        ⟨2023, 6, 1, 10, 30, 0⟩ = ⟨2023, 1, 15, 10, 30, 0⟩
    ∧ (¬ DateTime.Lt (dtm 3) (get_best_fallback_date (dtm 3) (dtm 5) (dtm 4))
        ∧ ¬ DateTime.Lt (dtm 5) (get_best_fallback_date (dtm 3) (dtm 5) (dtm 4))
        ∧ ¬ DateTime.Lt (dtm 4) (get_best_fallback_date (dtm 3) (dtm 5) (dtm 4))) :=
  ⟨fallback_date_resolution.1 _ _ _ (by decide),
   (fallback_date_resolution.2.1 (dtm 3) (dtm 5) (dtm 4) (by decide)).1⟩

/-- C7 counterexample.  A probe document whose only date is a
STREAM-level tag in the literal `YYYY-MM-DD HH:MM:SS` encoding yields
`none`, although the very same value is accepted at container level:
the two literal patterns are NOT accepted "in both places". -/
theorem stream_literal_rejected :
    get_video_date_taken cexProbe = none
    ∧ parseContainerValue "2023-01-15 09:00:00" = some ⟨2023, 1, 15, 9, 0, 0⟩ :=
  ⟨rfl, rfl⟩

/-- C7 (corrected).  The video extractor searches container tags in the
priority order `creation_time, date, creation_date,
com.apple.quicktime.creationdate` (an unparseable value is skipped and
the next field tried), accepting both the ISO-8601 encoding (optional
fractional seconds discarded, trailing `Z` rewritten to a `+00:00`
offset) and the two literal patterns; if no container tag yields a date
it searches each stream's `creation_time`/`date` tags, where ONLY the
ISO encoding (a value containing `T`) is accepted; a timeout, a
non-zero exit or an undecodable probe output yields `none`. -/
theorem video_extractor :
    (get_video_date_taken .timeout = none)
    ∧ (∀ (rc : Int) (doc : Option ProbeDoc), rc ≠ 0 →
        get_video_date_taken (.completed rc doc) = none)
    ∧ (∀ rc : Int, get_video_date_taken (.completed rc none) = none)
    ∧ (∀ (tags : Tags) (strms : Option (List (Option Tags))) (v : String)
        (d : DateTime),
        lookupTag tags "creation_time" = some v → parseContainerValue v = some d →
        get_video_date_taken (.completed 0 (some ⟨some tags, strms⟩)) = some d)
    ∧ (∀ (tags : Tags) (strms : Option (List (Option Tags))) (w v : String)
        (d : DateTime),
        lookupTag tags "creation_time" = some w → parseContainerValue w = none →
        lookupTag tags "date" = some v → parseContainerValue v = some d →
        get_video_date_taken (.completed 0 (some ⟨some tags, strms⟩)) = some d)
    ∧ (parseContainerValue "2023-01-15T14:30:45.000000Z" =
          some ⟨2023, 1, 15, 14, 30, 45⟩
        ∧ parseContainerValue "2023-01-15T14:30:45Z" =
          some ⟨2023, 1, 15, 14, 30, 45⟩
        ∧ parseContainerValue "2023-01-15 14:30:45" =
          some ⟨2023, 1, 15, 14, 30, 45⟩
        ∧ parseContainerValue "2023:01:15 14:30:45" =
          some ⟨2023, 1, 15, 14, 30, 45⟩)
    ∧ (∀ (tags : Tags) (rest : List (Option Tags)) (v : String) (d : DateTime),
        lookupTag tags "creation_time" = some v → parseStreamValue v = some d →
        get_video_date_taken
          (.completed 0 (some ⟨none, some (some tags :: rest)⟩)) = some d)
    ∧ (∀ v : String, hasT v = false → parseStreamValue v = none) := by
  refine ⟨rfl, ?_, ?_, ?_, ?_, ⟨rfl, rfl, rfl, rfl⟩, ?_, ?_⟩
  · intro rc doc h
    simp only [get_video_date_taken]
    rw [if_pos h]
  · intro rc
    simp only [get_video_date_taken]
    by_cases h : rc ≠ 0
    · rw [if_pos h]
    · rw [if_neg h]
  · intro tags strms v d h1 h2
    simp [get_video_date_taken, searchFields, containerFields, h1, h2]
  · intro tags strms w v d h1 h2 h3 h4
    simp [get_video_date_taken, searchFields, containerFields, h1, h2, h3, h4]
  · intro tags rest v d h1 h2
    simp [get_video_date_taken, searchStreams, searchFields, streamFields, h1, h2]
  · intro v h
    simp [parseStreamValue, h]

/-- Witness for C7's theorem: each hypothesis-bearing conjunct applied
at a concrete probe document. -/
theorem video_extractor_witness :
    get_video_date_taken (.completed 1 none) = none
    ∧ get_video_date_taken (.completed 0 (some
        ⟨some [("creation_time", "2023-01-15T14:30:45Z")], none⟩)) =
        some ⟨2023, 1, 15, 14, 30, 45⟩
    ∧ get_video_date_taken (.completed 0 (some
        ⟨some [("creation_time", "garbage"), ("date", "2023:01:15 14:30:45")],
          none⟩)) = some ⟨2023, 1, 15, 14, 30, 45⟩
    ∧ get_video_date_taken (.completed 0 (some
        ⟨none, some [some [("creation_time", "2023-01-15T14:30:45Z")]]⟩)) =
        some ⟨2023, 1, 15, 14, 30, 45⟩
    ∧ parseStreamValue "no iso here" = none :=
  ⟨video_extractor.2.1 1 none (by decide),
   video_extractor.2.2.2.1 [("creation_time", "2023-01-15T14:30:45Z")] none
     "2023-01-15T14:30:45Z" ⟨2023, 1, 15, 14, 30, 45⟩ rfl rfl,
   video_extractor.2.2.2.2.1
     [("creation_time", "garbage"), ("date", "2023:01:15 14:30:45")] none
     "garbage" "2023:01:15 14:30:45" ⟨2023, 1, 15, 14, 30, 45⟩ rfl rfl rfl rfl,
   video_extractor.2.2.2.2.2.2.1 [("creation_time", "2023-01-15T14:30:45Z")] []
     "2023-01-15T14:30:45Z" ⟨2023, 1, 15, 14, 30, 45⟩ rfl rfl,
   video_extractor.2.2.2.2.2.2.2 "no iso here" rfl⟩

/-- C8 (confirmed).  The image extractor scans the EXIF tag directory
once in its own iteration order: the first tag encountered whose name is
one of `DateTime`/`DateTimeOriginal`/`DateTimeDigitized` AND whose value
matches `YYYY:MM:DD HH:MM:SS` decides the result — not a per-priority
pass, so an earlier `DateTime` beats a later `DateTimeOriginal`; a
matching name with an unparseable value is skipped and the scan goes on;
when the whole primary directory yields nothing the EXIF IFD
sub-directory is scanned the same way, and with no IFD the extractor
returns `none`; an unreadable image or absent EXIF yields `none`. -/
theorem image_extractor :
    (get_image_date_taken .openError = none
      ∧ get_image_date_taken .noExif = none)
    ∧ (∀ (pre post : ExifDir) (n v : String) (ifd : Option ExifDir) (d : DateTime),
        n ∈ dateTagNames → strptimeFixed ':' v.data = some d →
        (∀ q ∈ pre, q.1 ∈ dateTagNames → strptimeFixed ':' q.2.data = none) →
        get_image_date_taken (.exif (pre ++ (n, v) :: post) ifd) = some d)
    ∧ (∀ (main dir : ExifDir),
        (∀ q ∈ main, q.1 ∈ dateTagNames → strptimeFixed ':' q.2.data = none) →
        get_image_date_taken (.exif main (some dir)) = scanExifDir dir)
    ∧ (∀ main : ExifDir,
        (∀ q ∈ main, q.1 ∈ dateTagNames → strptimeFixed ':' q.2.data = none) →
        get_image_date_taken (.exif main none) = none)
    ∧ (get_image_date_taken (.exif
        [("DateTime", "2023:01:15 08:00:00"),
         ("DateTimeOriginal", "2024:02:02 09:09:09")] none) =
        some ⟨2023, 1, 15, 8, 0, 0⟩)
    ∧ (get_image_date_taken (.exif
        [("DateTimeOriginal", "not a date"),
         ("DateTime", "2023:01:15 08:00:00")] none) =
        some ⟨2023, 1, 15, 8, 0, 0⟩) := by
  refine ⟨⟨rfl, rfl⟩, ?_, ?_, ?_, rfl, rfl⟩
  · intro pre post n v ifd d hn hv hpre
    simp only [get_image_date_taken, scanExifDir_found hn hv hpre]
  · intro main dir hmain
    simp only [get_image_date_taken, scanExifDir_eq_none hmain]
  · intro main hmain
    simp only [get_image_date_taken, scanExifDir_eq_none hmain]

/-- Witness for C8's theorem: the scan and IFD-fallback conjuncts
applied at concrete directories. -/
theorem image_extractor_witness :
    get_image_date_taken (.exif
      ([("Make", "Apple")] ++ ("DateTimeOriginal", "2023:01:15 14:30:45") :: [])
      none) = some ⟨2023, 1, 15, 14, 30, 45⟩
    ∧ get_image_date_taken (.exif [("Make", "Apple")]
        (some [("DateTimeOriginal", "2023:01:15 14:30:45")])) =
      scanExifDir [("DateTimeOriginal", "2023:01:15 14:30:45")]
    ∧ get_image_date_taken (.exif [("DateTime", "corrupt value")] none) = none :=
  ⟨image_extractor.2.1 [("Make", "Apple")] [] "DateTimeOriginal"
     "2023:01:15 14:30:45" none ⟨2023, 1, 15, 14, 30, 45⟩ (by decide) rfl
     (by decide),
   image_extractor.2.2.1 [("Make", "Apple")]
     [("DateTimeOriginal", "2023:01:15 14:30:45")] (by decide),
   image_extractor.2.2.2.1 [("DateTime", "corrupt value")] (by decide)⟩

/-- C9 counterexample.  A dry run on a NON-EMPTY directory does not
always report a positive total: with no recognized media file present
the run returns `(0, 0)`. -/
theorem dry_run_nonempty_total_zero :
    cexNoMedia ≠ []
    ∧ (rename_media_in_directory true cexNoMedia true false).1 = (0, 0) :=
  ⟨by unfold cexNoMedia; exact List.cons_ne_nil _ _, rfl⟩

/-- C9 (corrected).  A dry run on a directory containing at least one
recognized media file reports a positive total and exactly zero renames,
and performs no filesystem mutation: the directory state is returned
unchanged, every name and content identical. -/
theorem dry_run_no_mutation (st : Dir) (recursive : Bool)
    (h : find_media_files st false ≠ []) :
    rename_media_in_directory true st true recursive =
      ((totalCount (discoveredFiles st), 0), st)
    ∧ 0 < totalCount (discoveredFiles st) := by
  refine ⟨?_, totalCount_pos h⟩
  unfold rename_media_in_directory
  split_ifs with h1 h2
  · exact absurd (by simpa using h2) h
  · rw [runPlan_dry]
  · exact absurd rfl h1

/-- Witness for C9's theorem at a one-file directory. -/
theorem dry_run_no_mutation_witness :
    rename_media_in_directory true wDry true false =
      ((totalCount (discoveredFiles wDry), 0), wDry)
    ∧ 0 < totalCount (discoveredFiles wDry) :=
  dry_run_no_mutation wDry false (by decide)

/-- C10 (confirmed).  `rename_media_in_directory` ignores its
`recursive` parameter: for every directory, dry-run setting and pair of
flag values the result is identical (line 383 hardcodes
`recursive=False`); every file it discovers is a direct regular-file
child of the directory; and on a directory whose only media file lies in
a subdirectory, recursive discovery would differ — so grouping and
sequencing never span subdirectories. -/
theorem recursive_param_ignored :
    (∀ (dirExists : Bool) (st : Dir) (dryRun r1 r2 : Bool),
      rename_media_in_directory dirExists st dryRun r1 =
        rename_media_in_directory dirExists st dryRun r2)
    ∧ (∀ (st : Dir) (f : MFile), f ∈ find_media_files st false →
        Entry.file f ∈ st)
    ∧ find_media_files demoNested true ≠ find_media_files demoNested false := by
  refine ⟨fun dirExists st dryRun r1 r2 => rfl,
    fun st f h => (file_of_mem_find h).1, by decide⟩

/-- Witness for C10's discovery conjunct at a flat directory. -/
theorem recursive_param_ignored_witness :
    Entry.file ⟨"a.jpg", some (dtm 1), dtm 0, dtm 0, dtm 0, 1⟩ ∈ wFlat :=
  recursive_param_ignored.2.1 wFlat
    ⟨"a.jpg", some (dtm 1), dtm 0, dtm 0, dtm 0, 1⟩ (by decide)

end PhotoRenamer
